import Mathlib

/-
Verification of the two-way audio relay core of the ava-doorbell repository
(file src/services/talk_relay.py) against its natural-language specification.

The Python source is shallowly embedded below:
  - the G.711 A-law encoder `_linear2alaw` and the 65536-entry lookup table;
  - the RTP-over-TCP interleaved send path `send_audio_sync`;
  - the per-chunk DSP chain `_pcm16_to_alaw` (5-tap FIR smoothing, noise gate
    with hold, one-pole AGC, soft limiter, A-law encode);
  - the backchannel retry and backoff controller `_open_backchannel` together
    with the upstream-reset path `_reset_doorbell_rtsp`.

Machine integers are modelled as Nat and Int (Python ints are unbounded, and
the code masks explicitly where it packs into wire fields). Python float
state (the AGC gain, wall-clock times) is modelled over the rationals with
the literal coefficients of the source (0.05, 0.95, 0.90, 0.10); every
property proved below depends only on order comparisons and final clamping,
not on rounding of the arithmetic, so it is insensitive to the difference
between exact rationals and IEEE doubles. Fallible code (out-of-range list
indexing, struct.error on overflowing a 16-bit wire field) is modelled with
Option and an explicit raised-outcome constructor.
-/

-- ===========================================================================
-- G.711 A-law encoding (talk_relay.py lines 51..91)
-- ===========================================================================

/-- The exponent scan of `_linear2alaw`: starting from `exponent = 7` and
`mask = 0x4000`, scan bits 14 down to 8 and keep the first set bit,
mirroring the unrolled Python loop `for i in range(7, 0, -1)`. -/
def alawExponent (m : ℕ) : ℕ :=
  if m &&& 0x4000 ≠ 0 then 7
  else if m &&& 0x2000 ≠ 0 then 6
  else if m &&& 0x1000 ≠ 0 then 5
  else if m &&& 0x800 ≠ 0 then 4
  else if m &&& 0x400 ≠ 0 then 3
  else if m &&& 0x200 ≠ 0 then 2
  else if m &&& 0x100 ≠ 0 then 1
  else 7

/-- Embedding of `_linear2alaw` of talk_relay.py: sign bit 0x80 for negative samples,
magnitude clamped to 32767, chord and mantissa extraction, XOR 0x55. -/
def linear2alaw (pcm : ℤ) : ℕ :=
  let sign : ℕ := if 0 ≤ pcm then 0x00 else 0x80
  let mag0 : ℕ := (if 0 ≤ pcm then pcm else -pcm).toNat
  let mag : ℕ := min mag0 32767
  let em : ℕ × ℕ :=
    if 256 ≤ mag then
      let e := alawExponent mag
      (e, (mag >>> (e + 3)) &&& 0x0F)
    else
      (0, mag >>> 4)
  (sign ||| (em.1 <<< 4) ||| em.2) ^^^ 0x55

/-- One entry of the 65536-entry table of `_build_alaw_table`: index `u` is
the unsigned reinterpretation of the signed 16-bit sample. -/
def alawTableEntry (u : ℕ) : ℕ :=
  linear2alaw (if 32768 ≤ u then (u : ℤ) - 65536 else (u : ℤ))

/-- Embedding of `ALAW_TABLE = _build_alaw_table()`: the precomputed 65536-entry list. -/
def ALAW_TABLE : List ℕ :=
  (List.range 65536).map alawTableEntry

/-- The `ALAW_SILENCE` constant of talk_relay.py. -/
def ALAW_SILENCE : ℕ := 0xD5

lemma ALAW_TABLE_get? (u : ℕ) (h : u < 65536) :
    ALAW_TABLE.get? u = some (alawTableEntry u) := by
  simp [ALAW_TABLE, List.get?_eq_getElem?, List.getElem?_map, List.getElem?_range, h]

-- ===========================================================================
-- RTP over TCP interleaved sending (DirectRtspBackchannel.send_audio_sync,
-- talk_relay.py lines 349..379)
-- ===========================================================================

/-- Big-endian 16-bit packing, as struct.pack of format >H for a value
already below 2^16. -/
def be16 (v : ℕ) : List ℕ := [v / 256 % 256, v % 256]

/-- Big-endian 32-bit packing, as struct.pack of format >I for a value
already below 2^32. -/
def be32 (v : ℕ) : List ℕ :=
  [v / 16777216 % 256, v / 65536 % 256, v / 256 % 256, v % 256]

/-- The RTP-relevant state of a `DirectRtspBackchannel` object: sequence
number, timestamp, SSRC, interleaved channel, connected flag. The Python
counters are unbounded ints masked at pack time, so they are Nat here. -/
structure SendState where
  rtpSeq : ℕ
  rtpTs : ℕ
  rtpSsrc : ℕ
  channel : ℕ
  connected : Bool
deriving DecidableEq

/-- The 12-byte RTP header plus payload built by `send_audio_sync`:
first byte 0x80 (version 2, no padding, extension or CSRC), second byte 8
(payload type PCMA, marker clear), current sequence masked to 16 bits,
current timestamp masked to 32 bits, SSRC, then the A-law payload. The
SSRC is packed unmasked as in the source; it is drawn once per session
from randint(0, 0xFFFFFFFF) and never modified, so it always fits the
field. -/
def rtpBytes (st : SendState) (alaw : List ℕ) : List ℕ :=
  0x80 :: 8 :: (be16 (st.rtpSeq % 65536) ++ be32 (st.rtpTs % 4294967296)
    ++ be32 st.rtpSsrc ++ alaw)

/-- The TCP interleaved frame wrapping the RTP packet: magic 0x24, channel
byte, big-endian 16-bit length of the RTP bytes, then the RTP bytes. -/
def frameBytes (st : SendState) (alaw : List ℕ) : List ℕ :=
  0x24 :: st.channel :: (be16 (rtpBytes st alaw).length ++ rtpBytes st alaw)

/-- Outcome of one `send_audio_sync` call: either a Python exception escaped
(struct.error from packing an over-large length into the 16-bit frame
length field -- it is not caught by the except clause, which only catches
socket errors), or the boolean return together with the new state and the
bytes written to the socket. -/
inductive SendOutcome
  | raised (st : SendState)
  | ret (b : Bool) (st : SendState) (written : List ℕ)
deriving DecidableEq

/-- Whether the outcome is an escaped exception. -/
def SendOutcome.isRaised : SendOutcome → Bool
  | SendOutcome.raised _ => true
  | SendOutcome.ret _ _ _ => false

/-- Embedding of `send_audio_sync` of talk_relay.py. `sockOk` tells whether the single
blocking sendall call succeeds (False models a broken pipe, connection or
OS error, the kinds the except clause catches). The sequence is advanced by
one and the timestamp by the payload byte count before the frame is packed,
exactly as in the source; packing the frame length raises struct.error when
the RTP byte count does not fit 16 bits, and at that point the counters
have already been advanced. -/
def send_audio_sync (sockOk : Bool) (st : SendState) (alaw : List ℕ) :
    SendOutcome :=
  if st.connected = false then SendOutcome.ret false st []
  else
    let st1 := { st with rtpSeq := st.rtpSeq + 1,
                         rtpTs := st.rtpTs + alaw.length }
    if 65536 ≤ (rtpBytes st alaw).length then SendOutcome.raised st1
    else if sockOk then SendOutcome.ret true st1 (frameBytes st alaw)
    else SendOutcome.ret false { st1 with connected := false } []

/-- A contiguous run of successful sends: feed payloads one after the other,
keeping the frames produced while sends keep returning True. -/
def runSends (st : SendState) : List (List ℕ) → SendState × List (List ℕ)
  | [] => (st, [])
  | p :: ps =>
    match send_audio_sync true st p with
    | SendOutcome.ret true st1 f =>
      let r := runSends st1 ps
      (r.1, f :: r.2)
    | _ => (st, [])

lemma rtpBytes_length (st : SendState) (alaw : List ℕ) :
    (rtpBytes st alaw).length = 12 + alaw.length := by
  simp [rtpBytes, be16, be32]
  omega

lemma send_audio_sync_success (st : SendState) (alaw : List ℕ)
    (hc : st.connected = true) (hl : alaw.length ≤ 65523) :
    send_audio_sync true st alaw =
      SendOutcome.ret true
        { st with rtpSeq := st.rtpSeq + 1, rtpTs := st.rtpTs + alaw.length }
        (frameBytes st alaw) := by
  rw [send_audio_sync]
  rw [hc]
  rw [rtpBytes_length]
  simp
  omega

lemma send_audio_sync_oversize (st : SendState) (alaw : List ℕ)
    (hc : st.connected = true) (hl : 65524 ≤ alaw.length) :
    (send_audio_sync true st alaw).isRaised = true := by
  rw [send_audio_sync, rtpBytes_length]
  split_ifs with h1 h2 h3
  · rw [hc] at h1; exact absurd h1 (by decide)
  · rfl
  · omega
  · omega

lemma runSends_state (st : SendState) (ps : List (List ℕ))
    (hc : st.connected = true) (hl : ∀ p ∈ ps, p.length ≤ 65523) :
    (runSends st ps).1 =
      { st with rtpSeq := st.rtpSeq + ps.length,
                rtpTs := st.rtpTs + (ps.map List.length).sum } := by
  induction ps generalizing st with
  | nil => simp [runSends]
  | cons p ps ih =>
    rw [runSends]
    rw [send_audio_sync_success st p hc (hl p (by simp))]
    have := ih { st with rtpSeq := st.rtpSeq + 1, rtpTs := st.rtpTs + p.length }
      (by simp [hc]) (fun q hq => hl q (by simp [hq]))
    simp only [this]
    simp
    omega

-- ===========================================================================
-- Claim C1 -- the A-law encoder at the claimed points
-- ===========================================================================

/-- Claim C1: the claim asserts that the encoder produces the ITU-T G.711
A-law byte, with encode(0) = 0xD5, encode(32767) = 0xAA and
encode(-32768) = 0x2A. Evaluating the code at those inputs: the code maps
0 to 0x55, 32767 to 0x2A and -32768 to 0xAA -- the pre-XOR sign bit is
inverted relative to G.711 (the code uses 0x80 for negative samples, G.711
uses it for non-negative ones). In particular the table entry for a zero
sample differs from the distinguished silence constant ALAW_SILENCE = 0xD5,
although the module docstring promises correct ITU-T G.711 A-law encoding
and the spec calls ALAW_SILENCE the encoding of a zero sample. -/
theorem alaw_encoder_at_claimed_points :
    linear2alaw 0 = 0x55 ∧ linear2alaw 32767 = 0x2A ∧
    linear2alaw (-32768) = 0xAA ∧
    ALAW_SILENCE = 0xD5 ∧ linear2alaw 0 ≠ ALAW_SILENCE ∧
    ALAW_TABLE.get? 0 = some 0x55 ∧
    ALAW_TABLE.get? 32767 = some 0x2A ∧
    ALAW_TABLE.get? 32768 = some 0xAA := by
  refine ⟨by decide, by decide, by decide, by decide, by decide, ?_, ?_, ?_⟩
  · rw [ALAW_TABLE_get? 0 (by norm_num)]; decide
  · rw [ALAW_TABLE_get? 32767 (by norm_num)]; decide
  · rw [ALAW_TABLE_get? 32768 (by norm_num)]; decide

-- ===========================================================================
-- Claim C6 -- RTP frame format and counter advance on successful sends
-- ===========================================================================

/-- Claim C6: every successful send of a payload of length L writes exactly
one interleaved frame 0x24, channel, uint16-be of 12+L, followed by the
12-byte RTP header (first byte 0x80, payload type byte 8) and the payload;
the state advance gives consecutive successful packets sequence numbers
differing by 1 (packed mod 2^16) and timestamps differing by the payload
byte count (packed mod 2^32); over a contiguous run of successful sends the
sequence advances by the packet count, the timestamp by the total payload
byte count, and the SSRC never changes. -/
theorem rtp_send_frame_format_and_counters :
    (∀ st alaw, st.connected = true → alaw.length ≤ 65523 →
      send_audio_sync true st alaw =
        SendOutcome.ret true
          { st with rtpSeq := st.rtpSeq + 1, rtpTs := st.rtpTs + alaw.length }
          (0x24 :: st.channel :: (be16 (12 + alaw.length) ++
            (0x80 :: 8 :: (be16 (st.rtpSeq % 65536) ++
              be32 (st.rtpTs % 4294967296) ++ be32 st.rtpSsrc ++ alaw))))) ∧
    (∀ st ps, st.connected = true → (∀ p ∈ ps, p.length ≤ 65523) →
      (runSends st ps).1.rtpSeq = st.rtpSeq + ps.length ∧
      (runSends st ps).1.rtpTs = st.rtpTs + (ps.map List.length).sum ∧
      (runSends st ps).1.rtpSsrc = st.rtpSsrc) := by
  constructor
  · intro st alaw hc hl
    rw [send_audio_sync_success st alaw hc hl]
    rw [frameBytes, rtpBytes_length, rtpBytes]
  · intro st ps hc hl
    rw [runSends_state st ps hc hl]
    exact ⟨rfl, rfl, rfl⟩

/-- Witness for claim C6 at a concrete state and payload. -/
theorem rtp_send_frame_format_witness :
    (⟨0, 0, 0, 0, true⟩ : SendState).connected = true ∧
    ([1, 2, 3] : List ℕ).length ≤ 65523 ∧
    send_audio_sync true ⟨0, 0, 0, 0, true⟩ [1, 2, 3] =
      SendOutcome.ret true ⟨1, 3, 0, 0, true⟩
        [0x24, 0, 0, 15, 0x80, 8, 0, 0, 0, 0, 0, 0, 0, 0, 0, 0, 1, 2, 3] ∧
    (runSends ⟨5, 7, 9, 0, true⟩ [[1], [2, 3]]).1.rtpSeq = 7 := by
  refine ⟨rfl, by decide, ?_, ?_⟩
  · have h := rtp_send_frame_format_and_counters.1 ⟨0, 0, 0, 0, true⟩ [1, 2, 3]
      rfl (by decide)
    rw [h]; decide
  · have h := (rtp_send_frame_format_and_counters.2 ⟨5, 7, 9, 0, true⟩
      [[1], [2, 3]] rfl (by decide)).1
    rw [h]
    rfl

-- ===========================================================================
-- Claim C8 -- boolean send result versus the 16-bit frame length field
-- ===========================================================================

/-- Claim C8 counterexample: a payload of 65524 bytes is admitted by the
WebSocket layer (message of 65525 bytes, below the 65536 limit), but
12 + 65524 does not fit the 16-bit interleaved length field, so the
struct.pack call raises struct.error, which the except clause (socket
errors only) does not catch: send_audio does not return a boolean. -/
theorem send_audio_oversize_payload_raises :
    (List.replicate 65524 0).length + 1 ≤ 65536 ∧
    (send_audio_sync true ⟨0, 0, 0, 0, true⟩
      (List.replicate 65524 0)).isRaised = true := by
  constructor
  · rw [List.length_replicate]; omega
  · exact send_audio_sync_oversize ⟨0, 0, 0, 0, true⟩ _ rfl
      (by rw [List.length_replicate])

/-- Claim C8 amended: for payloads of at most 65523 bytes (so that the
12-byte RTP header plus payload fits the 16-bit interleaved length field)
send_audio_sync never raises and returns a boolean: False immediately when
not connected, True on a successful write, and on a send error it sets
connected to false and returns False. Payloads of 65524 to 65535 bytes,
though admitted by the WebSocket size limit, raise instead (the
counterexample theorem). -/
theorem send_audio_bounded_payload_is_boolean :
    ∀ st alaw sockOk, alaw.length ≤ 65523 →
      ((send_audio_sync sockOk st alaw).isRaised = false) ∧
      (st.connected = false →
        send_audio_sync sockOk st alaw = SendOutcome.ret false st []) ∧
      (st.connected = true → sockOk = true →
        send_audio_sync sockOk st alaw =
          SendOutcome.ret true
            { st with rtpSeq := st.rtpSeq + 1, rtpTs := st.rtpTs + alaw.length }
            (frameBytes st alaw)) ∧
      (st.connected = true → sockOk = false →
        send_audio_sync sockOk st alaw =
          SendOutcome.ret false
            { st with rtpSeq := st.rtpSeq + 1, rtpTs := st.rtpTs + alaw.length,
                      connected := false } []) := by
  intro st alaw sockOk hl
  refine ⟨?_, ?_, ?_, ?_⟩
  · rw [send_audio_sync, rtpBytes_length]
    split_ifs with h1 h2 h3 <;> first | rfl | omega
  · intro hc; rw [send_audio_sync, if_pos hc]
  · intro hc hs
    subst hs
    exact send_audio_sync_success st alaw hc hl
  · intro hc hs
    subst hs
    rw [send_audio_sync, rtpBytes_length]
    split_ifs with h1 h2 h3
    · rw [hc] at h1; exact absurd h1 (by decide)
    · omega
    · exact absurd h3 (by decide)
    · rfl

/-- Witness for claim C8 at a concrete state and payload. -/
theorem send_audio_bounded_payload_witness :
    ([7, 7] : List ℕ).length ≤ 65523 ∧
    (send_audio_sync false ⟨0, 0, 0, 0, true⟩ [7, 7]).isRaised = false ∧
    send_audio_sync false ⟨0, 0, 0, 0, true⟩ [7, 7] =
      SendOutcome.ret false ⟨1, 2, 0, 0, false⟩ [] := by
  refine ⟨by decide, ?_, ?_⟩
  · exact (send_audio_bounded_payload_is_boolean ⟨0, 0, 0, 0, true⟩ [7, 7]
      false (by decide)).1
  · have h := (send_audio_bounded_payload_is_boolean ⟨0, 0, 0, 0, true⟩ [7, 7]
      false (by decide)).2.2.2 rfl rfl
    rw [h]
    rfl

-- ===========================================================================
-- Audio conditioner (TalkRelayServer._pcm16_to_alaw, talk_relay.py 639..722)
-- ===========================================================================

/-- DSP constants of talk_relay.py lines 98..108. Float constants are
exact rationals here; the properties proved below depend only on order
comparisons and clamping, never on rounding of this arithmetic. -/
def AGC_TARGET : ℚ := 12000

def AGC_MIN_GAIN : ℚ := 1

def AGC_MAX_GAIN : ℚ := 30

def AGC_ATTACK : ℚ := 0.05

def AGC_RELEASE : ℚ := 0.90

def NOISE_GATE_THRESHOLD : ℕ := 30

def NOISE_GATE_HOLD_CHUNKS : ℕ := 12

def SOFT_LIMIT : ℤ := 12000

def SOFT_CEILING : ℤ := 28000

/-- The middle of the 5-tap FIR loop, `for i in range(2, n - 2)`: full
kernel [1, 2, 4, 2, 1] with Python floor division by 10. Reads are modelled
with get? so an out-of-range index fails like an IndexError (for the
indices this loop visits they are always in range). -/
def smoothMid (raw : List ℤ) : List ℕ → List ℤ → Option (List ℤ)
  | [], acc => some acc
  | i :: is, acc => do
    let x1 ← raw.get? (i - 2)
    let x2 ← raw.get? (i - 1)
    let x3 ← raw.get? i
    let x4 ← raw.get? (i + 1)
    let x5 ← raw.get? (i + 2)
    smoothMid raw is
      (acc.set i ((x1 + x2 * 2 + x3 * 4 + x4 * 2 + x5).fdiv 10))

/-- First edge assignment of the FIR (line 654):
smoothed[0] = (raw[0]*4 + raw[1]*2 + raw[min(2, n-1)]) // 7, evaluated on a
fresh zero buffer of length n. The read of raw[1] is the uncaught
IndexError of the source for a 1-sample chunk. -/
def smoothEdge0 (raw : List ℤ) : Option (List ℤ) := do
  let a0 ← raw.get? 0
  let a1 ← raw.get? 1
  let a2 ← raw.get? (min 2 (raw.length - 1))
  pure ((List.replicate raw.length 0).set 0 ((a0 * 4 + a1 * 2 + a2).fdiv 7))

/-- Second edge assignment (lines 655..656), guarded by n > 1:
smoothed[1] = (raw[0]*2 + raw[1]*4 + raw[2]*2 + raw[min(3, n-1)]) // 9.
The read of raw[2] is the uncaught IndexError of the source for a 2-sample
chunk. -/
def smoothEdge1 (raw : List ℤ) (s : List ℤ) : Option (List ℤ) :=
  if 1 < raw.length then do
    let b0 ← raw.get? 0
    let b1 ← raw.get? 1
    let b2 ← raw.get? 2
    let b3 ← raw.get? (min 3 (raw.length - 1))
    pure (s.set 1 ((b0 * 2 + b1 * 4 + b2 * 2 + b3).fdiv 9))
  else pure s

/-- Mirror edge assignment (lines 659..660), guarded by n > 2:
smoothed[n-2] = (raw[max(0, n-4)] + raw[n-3]*2 + raw[n-2]*4 + raw[n-1]*2) // 9.
The Python max(0, n-4) guard coincides with Nat subtraction. -/
def smoothEdge2 (raw : List ℤ) (s : List ℤ) : Option (List ℤ) :=
  if 2 < raw.length then do
    let c0 ← raw.get? (raw.length - 4)
    let c1 ← raw.get? (raw.length - 3)
    let c2 ← raw.get? (raw.length - 2)
    let c3 ← raw.get? (raw.length - 1)
    pure (s.set (raw.length - 2) ((c0 + c1 * 2 + c2 * 4 + c3 * 2).fdiv 9))
  else pure s

/-- Last edge assignment (line 661):
smoothed[n-1] = (raw[max(0, n-3)] + raw[n-2]*2 + raw[n-1]*4) // 7. -/
def smoothEdgeLast (raw : List ℤ) (s : List ℤ) : Option (List ℤ) := do
  let d0 ← raw.get? (raw.length - 3)
  let d1 ← raw.get? (raw.length - 2)
  let d2 ← raw.get? (raw.length - 1)
  pure (s.set (raw.length - 1) ((d0 + d1 * 2 + d2 * 4).fdiv 7))

/-- The 5-tap weighted moving average of `_pcm16_to_alaw` (lines 651..661),
including the truncated edge kernels, in the exact assignment order of the
source: the two leading edge formulas, the middle loop over
range(2, n - 2) (List.range' 2 (n - 4) lists those indices), then the two
trailing edge formulas. Python integer division is floor division, hence
Int.fdiv. The value is none exactly when some read indexes out of range,
an uncaught IndexError in the source (n = 1 and n = 2). -/
def smooth (raw : List ℤ) : Option (List ℤ) :=
  (smoothEdge0 raw).bind fun s0 =>
  (smoothEdge1 raw s0).bind fun s1 =>
  (smoothMid raw (List.range' 2 (raw.length - 4)) s1).bind fun s2 =>
  (smoothEdge2 raw s2).bind fun s3 =>
  smoothEdgeLast raw s3

/-- The chunk peak, `max(abs(s) for s in smoothed)`. -/
def maxAbs (l : List ℤ) : ℕ := l.foldr (fun x m => max x.natAbs m) 0

/-- Per-session DSP state of TalkRelayServer.__init__ (lines 426..428):
the AGC gain, the remaining gate-hold chunks and the diagnostic counter. -/
structure DspState where
  agcGain : ℚ
  gateHold : ℕ
  diagCounter : ℕ
deriving DecidableEq

/-- Gain application, soft limiter and A-law encoding of one smoothed
sample (lines 703..721): multiply by the integer gain, compress the
magnitude above SOFT_LIMIT with the hyperbolic softknee toward
SOFT_CEILING, restore the sign, hard-clamp to the signed 16-bit range and
look up the A-law table at the unsigned reinterpretation. -/
def encodeSample (intGain : ℤ) (s : ℤ) : ℕ :=
  let v := s * intGain
  let av := |v|
  let v1 :=
    if SOFT_LIMIT < av then
      let headroom := SOFT_CEILING - SOFT_LIMIT
      let excess := av - SOFT_LIMIT
      let compressed := (headroom * excess).fdiv (excess + headroom)
      (SOFT_LIMIT + compressed) * (if 0 < v then 1 else -1)
    else v
  let v2 := if 32767 < v1 then 32767 else if v1 < -32768 then -32768 else v1
  alawTableEntry (if v2 < 0 then v2 + 65536 else v2).toNat

/-- The AGC update, diagnostic counter increment and per-sample encoding loop that
run once the gate has admitted the chunk (lines 674..722): the one-pole
asymmetric AGC with fast attack and slow release, clamped to
[AGC_MIN_GAIN, AGC_MAX_GAIN], skipped entirely when the peak is zero; the
gain is truncated to an integer for the sample loop. -/
def agcEncode (st : DspState) (smoothed : List ℤ) (chunkPeak : ℕ) :
    List ℕ × DspState :=
  let gain0 := st.agcGain
  let gain1 :=
    if 0 < chunkPeak then
      let ideal := max AGC_MIN_GAIN (min AGC_MAX_GAIN
        (AGC_TARGET / (chunkPeak : ℚ)))
      if ideal < gain0 then gain0 * AGC_ATTACK + ideal * (1 - AGC_ATTACK)
      else gain0 * AGC_RELEASE + ideal * (1 - AGC_RELEASE)
    else gain0
  let gain := max AGC_MIN_GAIN (min AGC_MAX_GAIN gain1)
  let intGain : ℤ := ⌊gain⌋
  (smoothed.map (encodeSample intGain),
    { st with agcGain := gain, diagCounter := st.diagCounter + 1 })

/-- Embedding of `_pcm16_to_alaw` on an already-unpacked chunk of signed 16-bit samples:
empty chunk short-circuits to empty output; otherwise smooth, take the
peak, run the noise gate with hold (threshold 30, hold 12, silence byte
0xD5 emitted with no state change when the gate is closed), then AGC,
limiter and encoding. none models the uncaught IndexError of the edge
kernels. -/
def pcm16_to_alaw (st : DspState) (raw : List ℤ) :
    Option (List ℕ × DspState) :=
  if raw.isEmpty then some ([], st)
  else
    match smooth raw with
    | Option.none => Option.none
    | Option.some smoothed =>
      let chunkPeak := maxAbs smoothed
      if NOISE_GATE_THRESHOLD ≤ chunkPeak then
        some (agcEncode { st with gateHold := NOISE_GATE_HOLD_CHUNKS }
          smoothed chunkPeak)
      else if 0 < st.gateHold then
        some (agcEncode { st with gateHold := st.gateHold - 1 }
          smoothed chunkPeak)
      else
        some (List.replicate raw.length ALAW_SILENCE, st)

/-- A sequence of chunks processed through the per-session DSP state, with
the outputs collected in order; none as soon as one chunk raises. -/
def processChunks : DspState → List (List ℤ) → Option (List (List ℕ) × DspState)
  | st, [] => some ([], st)
  | st, c :: cs =>
    (pcm16_to_alaw st c).bind fun p =>
      (processChunks p.2 cs).map fun q => (p.1 :: q.1, q.2)

/-- The per-server DSP initial state set in TalkRelayServer.__init__:
gain at float(AGC_MAX_GAIN) = 30, gate closed, counter zero. -/
def initialDspState : DspState := ⟨30, 0, 0⟩

-- ===========================================================================
-- Totality and length of the conditioner for chunks of at least 3 samples
-- ===========================================================================

lemma get?_isSome_of_lt {l : List ℤ} {i : ℕ} (h : i < l.length) :
    ∃ v, l.get? i = some v := by
  rw [List.get?_eq_getElem?, List.getElem?_eq_getElem h]
  exact ⟨_, rfl⟩

lemma smoothMid_total (raw : List ℤ) :
    ∀ (is : List ℕ), (∀ i ∈ is, i + 2 < raw.length) →
    ∀ acc, ∃ out, smoothMid raw is acc = some out ∧ out.length = acc.length := by
  intro is
  induction is with
  | nil => intro _ acc; exact ⟨acc, rfl, rfl⟩
  | cons i is ih =>
    intro h acc
    have hi : i + 2 < raw.length := h i (by simp)
    obtain ⟨x1, h1⟩ := get?_isSome_of_lt (l := raw) (i := i - 2) (by omega)
    obtain ⟨x2, h2⟩ := get?_isSome_of_lt (l := raw) (i := i - 1) (by omega)
    obtain ⟨x3, h3⟩ := get?_isSome_of_lt (l := raw) (i := i) (by omega)
    obtain ⟨x4, h4⟩ := get?_isSome_of_lt (l := raw) (i := i + 1) (by omega)
    obtain ⟨x5, h5⟩ := get?_isSome_of_lt (l := raw) (i := i + 2) hi
    obtain ⟨out, hout, hlen⟩ := ih (fun j hj => h j (by simp [hj]))
      (acc.set i ((x1 + x2 * 2 + x3 * 4 + x4 * 2 + x5).fdiv 10))
    refine ⟨out, ?_, ?_⟩
    · rw [smoothMid]
      rw [h1, h2, h3, h4, h5]
      simpa using hout
    · rw [hlen, List.length_set]

lemma smoothEdge0_total (raw : List ℤ) (h3 : 3 ≤ raw.length) :
    ∃ out, smoothEdge0 raw = some out ∧ out.length = raw.length := by
  obtain ⟨a0, ha0⟩ := get?_isSome_of_lt (l := raw) (i := 0) (by omega)
  obtain ⟨a1, ha1⟩ := get?_isSome_of_lt (l := raw) (i := 1) (by omega)
  obtain ⟨a2, ha2⟩ := get?_isSome_of_lt (l := raw) (i := min 2 (raw.length - 1))
    (by omega)
  refine ⟨(List.replicate raw.length 0).set 0 ((a0 * 4 + a1 * 2 + a2).fdiv 7),
    ?_, ?_⟩
  · rw [smoothEdge0, ha0, ha1, ha2]
    simp only [Option.bind_eq_bind, Option.some_bind, Option.pure_def]
  · simp only [List.length_set, List.length_replicate]

lemma smoothEdge1_total (raw s : List ℤ) (h3 : 3 ≤ raw.length) :
    ∃ out, smoothEdge1 raw s = some out ∧ out.length = s.length := by
  obtain ⟨a0, ha0⟩ := get?_isSome_of_lt (l := raw) (i := 0) (by omega)
  obtain ⟨a1, ha1⟩ := get?_isSome_of_lt (l := raw) (i := 1) (by omega)
  obtain ⟨b2, hb2⟩ := get?_isSome_of_lt (l := raw) (i := 2) (by omega)
  obtain ⟨b3, hb3⟩ := get?_isSome_of_lt (l := raw) (i := min 3 (raw.length - 1))
    (by omega)
  refine ⟨s.set 1 ((a0 * 2 + a1 * 4 + b2 * 2 + b3).fdiv 9), ?_, ?_⟩
  · rw [smoothEdge1, if_pos (by omega : 1 < raw.length), ha0, ha1, hb2, hb3]
    simp only [Option.bind_eq_bind, Option.some_bind, Option.pure_def]
  · simp only [List.length_set]

lemma smoothEdge2_total (raw s : List ℤ) (h3 : 3 ≤ raw.length) :
    ∃ out, smoothEdge2 raw s = some out ∧ out.length = s.length := by
  obtain ⟨c0, hc0⟩ := get?_isSome_of_lt (l := raw) (i := raw.length - 4) (by omega)
  obtain ⟨c1, hc1⟩ := get?_isSome_of_lt (l := raw) (i := raw.length - 3) (by omega)
  obtain ⟨c2, hc2⟩ := get?_isSome_of_lt (l := raw) (i := raw.length - 2) (by omega)
  obtain ⟨c3, hc3⟩ := get?_isSome_of_lt (l := raw) (i := raw.length - 1) (by omega)
  refine ⟨s.set (raw.length - 2) ((c0 + c1 * 2 + c2 * 4 + c3 * 2).fdiv 9),
    ?_, ?_⟩
  · rw [smoothEdge2, if_pos (by omega : 2 < raw.length), hc0, hc1, hc2, hc3]
    simp only [Option.bind_eq_bind, Option.some_bind, Option.pure_def]
  · simp only [List.length_set]

lemma smoothEdgeLast_total (raw s : List ℤ) (h3 : 3 ≤ raw.length) :
    ∃ out, smoothEdgeLast raw s = some out ∧ out.length = s.length := by
  obtain ⟨c1, hc1⟩ := get?_isSome_of_lt (l := raw) (i := raw.length - 3) (by omega)
  obtain ⟨c2, hc2⟩ := get?_isSome_of_lt (l := raw) (i := raw.length - 2) (by omega)
  obtain ⟨c3, hc3⟩ := get?_isSome_of_lt (l := raw) (i := raw.length - 1) (by omega)
  refine ⟨s.set (raw.length - 1) ((c1 + c2 * 2 + c3 * 4).fdiv 7), ?_, ?_⟩
  · rw [smoothEdgeLast, hc1, hc2, hc3]
    simp only [Option.bind_eq_bind, Option.some_bind, Option.pure_def]
  · simp only [List.length_set]

lemma smooth_total (raw : List ℤ) (h3 : 3 ≤ raw.length) :
    ∃ out, smooth raw = some out ∧ out.length = raw.length := by
  obtain ⟨s0, h0, l0⟩ := smoothEdge0_total raw h3
  obtain ⟨s1, h1, l1⟩ := smoothEdge1_total raw s0 h3
  obtain ⟨s2, h2, l2⟩ := smoothMid_total raw (List.range' 2 (raw.length - 4))
    (by
      intro i hi
      rw [List.mem_range'] at hi
      omega) s1
  obtain ⟨s3, hs3, l3⟩ := smoothEdge2_total raw s2 h3
  obtain ⟨s4, hs4, l4⟩ := smoothEdgeLast_total raw s3 h3
  refine ⟨s4, ?_, by omega⟩
  rw [smooth, h0, Option.some_bind, h1, Option.some_bind, h2,
    Option.some_bind, hs3, Option.some_bind, hs4]

lemma smooth_length {raw out : List ℤ} (h : smooth raw = some out)
    (h3 : 3 ≤ raw.length) : out.length = raw.length := by
  obtain ⟨out2, heq, hlen⟩ := smooth_total raw h3
  rw [heq] at h
  cases h
  exact hlen


lemma agcEncode_gateHold (st : DspState) (sm : List ℤ) (p : ℕ) :
    (agcEncode st sm p).2.gateHold = st.gateHold := rfl

lemma agcEncode_length (st : DspState) (sm : List ℤ) (p : ℕ) :
    (agcEncode st sm p).1.length = sm.length := by
  simp [agcEncode]

lemma agcEncode_gain_bounds (st : DspState) (sm : List ℤ) (p : ℕ) :
    1 ≤ (agcEncode st sm p).2.agcGain ∧ (agcEncode st sm p).2.agcGain ≤ 30 := by
  simp only [agcEncode]
  constructor
  · exact le_max_left _ _
  · exact max_le (by norm_num [AGC_MIN_GAIN]) (by
      calc min AGC_MAX_GAIN _ ≤ AGC_MAX_GAIN := min_le_left _ _
        _ ≤ 30 := by norm_num [AGC_MAX_GAIN])

lemma agcEncode_peak_zero (st : DspState) (sm : List ℤ)
    (h1 : 1 ≤ st.agcGain) (h2 : st.agcGain ≤ 30) :
    (agcEncode st sm 0).2.agcGain = st.agcGain := by
  simp only [agcEncode]
  rw [if_neg (by omega : ¬ 0 < 0)]
  rw [min_eq_right (by rw [AGC_MAX_GAIN]; exact h2),
    max_eq_right (by rw [AGC_MIN_GAIN]; exact h1)]

lemma isEmpty_false_of_ne {raw : List ℤ} (h : raw ≠ []) :
    raw.isEmpty = false := by
  cases raw with
  | nil => exact absurd rfl h
  | cons a l => rfl

/-- Gate-closed step: peak below threshold and no hold left emits n silence
bytes and leaves the whole state untouched (the source returns before any
AGC update or counter increment). -/
lemma pcm16_gate_closed (st : DspState) (raw sm : List ℤ)
    (hne : raw ≠ []) (hsm : smooth raw = some sm)
    (hq : maxAbs sm < NOISE_GATE_THRESHOLD) (hh : st.gateHold = 0) :
    pcm16_to_alaw st raw =
      some (List.replicate raw.length ALAW_SILENCE, st) := by
  rw [pcm16_to_alaw, isEmpty_false_of_ne hne]
  simp only [Bool.false_eq_true, if_false]
  rw [hsm]
  dsimp only
  rw [if_neg (by omega), if_neg (by omega)]

/-- Quiet step with hold remaining: the hold decrements and the AGC,
limiter and encoding run on the smoothed chunk. -/
lemma pcm16_quiet_hold (st : DspState) (raw sm : List ℤ)
    (hne : raw ≠ []) (hsm : smooth raw = some sm)
    (hq : maxAbs sm < NOISE_GATE_THRESHOLD) (hh : 0 < st.gateHold) :
    pcm16_to_alaw st raw =
      some (agcEncode { st with gateHold := st.gateHold - 1 } sm (maxAbs sm)) := by
  rw [pcm16_to_alaw, isEmpty_false_of_ne hne]
  simp only [Bool.false_eq_true, if_false]
  rw [hsm]
  dsimp only
  rw [if_neg (by omega), if_pos hh]

/-- Loud step: peak at or above threshold re-arms the hold at 12 and the
AGC, limiter and encoding run. -/
lemma pcm16_loud (st : DspState) (raw sm : List ℤ)
    (hne : raw ≠ []) (hsm : smooth raw = some sm)
    (hq : NOISE_GATE_THRESHOLD ≤ maxAbs sm) :
    pcm16_to_alaw st raw =
      some (agcEncode { st with gateHold := NOISE_GATE_HOLD_CHUNKS } sm
        (maxAbs sm)) := by
  rw [pcm16_to_alaw, isEmpty_false_of_ne hne]
  simp only [Bool.false_eq_true, if_false]
  rw [hsm]
  dsimp only
  rw [if_pos hq]

-- ===========================================================================
-- Claim C3 -- totality and output length of the conditioner
-- ===========================================================================

/-- Claim C3 counterexample: chunks of 1 or 2 samples make the edge kernels
of the FIR index out of range (raw[1] when n = 1, raw[2] when n = 2), an
uncaught IndexError, so the conditioner does not complete for every
non-empty chunk. -/
theorem conditioner_crashes_on_tiny_chunks :
    pcm16_to_alaw initialDspState [5] = Option.none ∧
    pcm16_to_alaw initialDspState [5, 5] = Option.none := by
  constructor
  · decide
  · decide

/-- Claim C3 amended: for every input chunk of at least 3 samples the
conditioner completes without error and returns exactly one output byte
per input sample (A-law bytes, or silence bytes when the gate is closed);
chunks of 1 or 2 samples instead hit an out-of-range index in the edge
kernels (the counterexample theorem). -/
theorem conditioner_total_for_chunks_of_3 :
    ∀ st raw, 3 ≤ raw.length →
      ∃ out st2, pcm16_to_alaw st raw = some (out, st2) ∧
        out.length = raw.length := by
  intro st raw h3
  have hne : raw ≠ [] := by
    intro h
    rw [h] at h3
    simp at h3
  obtain ⟨sm, hsm, hlen⟩ := smooth_total raw h3
  by_cases hq : NOISE_GATE_THRESHOLD ≤ maxAbs sm
  · refine ⟨_, _, pcm16_loud st raw sm hne hsm hq, ?_⟩
    simpa using hlen
  · by_cases hh : 0 < st.gateHold
    · refine ⟨_, _, pcm16_quiet_hold st raw sm hne hsm (by omega) hh, ?_⟩
      simpa using hlen
    · refine ⟨_, _, pcm16_gate_closed st raw sm hne hsm (by omega) (by omega), ?_⟩
      exact List.length_replicate _ _

/-- Witness for the amended claim C3 at a concrete 3-sample chunk. -/
theorem conditioner_total_witness :
    3 ≤ ([0, 0, 0] : List ℤ).length ∧
    ∃ out st2, pcm16_to_alaw initialDspState [0, 0, 0] = some (out, st2) ∧
      out.length = ([0, 0, 0] : List ℤ).length :=
  ⟨by decide, conditioner_total_for_chunks_of_3 initialDspState [0, 0, 0]
    (by decide)⟩

-- ===========================================================================
-- Claim C7 -- gate silence on quiet chunks
-- ===========================================================================

/-- A chunk is quiet when it is non-empty, its smoothing succeeds and the
smoothed peak is strictly below the noise-gate threshold. -/
def quietChunk (c : List ℤ) : Bool :=
  !c.isEmpty &&
    ((smooth c).elim false fun sm => decide (maxAbs sm < NOISE_GATE_THRESHOLD))

lemma quietChunk_spec {c : List ℤ} (h : quietChunk c = true) :
    c ≠ [] ∧ ∃ sm, smooth c = some sm ∧ maxAbs sm < NOISE_GATE_THRESHOLD := by
  rw [quietChunk] at h
  cases hs : smooth c with
  | none =>
    rw [hs] at h
    simp [Option.elim] at h
  | some sm =>
    rw [hs] at h
    simp only [Bool.and_eq_true, Bool.not_eq_true', Option.elim,
      decide_eq_true_eq] at h
    refine ⟨?_, sm, rfl, h.2⟩
    intro hnil
    rw [hnil] at h
    simp at h

/-- Processing quiet chunks: every chunk once the initial hold is exhausted
comes out as all silence bytes. The hold strictly decreases on each quiet
chunk and stays at zero, where the gate substitutes silence. -/
lemma processChunks_quiet_silence (chunks : List (List ℤ)) :
    ∀ st outs st2, (∀ c ∈ chunks, quietChunk c = true) →
      processChunks st chunks = some (outs, st2) →
      ∀ p ∈ (outs.zip chunks).drop st.gateHold,
        p.1 = List.replicate p.2.length ALAW_SILENCE := by
  induction chunks with
  | nil =>
    intro st outs st2 _ h p hp
    rw [processChunks] at h
    cases h
    simp at hp
  | cons c cs ih =>
    intro st outs st2 hq h
    obtain ⟨hne, sm, hsm, hpk⟩ := quietChunk_spec (hq c (by simp))
    rw [processChunks] at h
    rcases hh : st.gateHold with _ | n
    · rw [pcm16_gate_closed st c sm hne hsm hpk hh] at h
      rw [Option.some_bind] at h
      cases hrest : processChunks st cs with
      | none => rw [hrest] at h; cases h
      | some q =>
        rw [hrest, Option.map_some'] at h
        cases h
        intro p hp
        rw [List.drop_zero, List.zip_cons_cons] at hp
        rcases List.mem_cons.mp hp with hp1 | hp2
        · rw [hp1]
        · have := ih st q.1 q.2 (fun d hd => hq d (by simp [hd]))
            (by rw [hrest])
          rw [hh, List.drop_zero] at this
          exact this p hp2
    · rw [pcm16_quiet_hold st c sm hne hsm hpk (by omega)] at h
      rw [Option.some_bind] at h
      cases hrest : processChunks
          (agcEncode { st with gateHold := st.gateHold - 1 } sm (maxAbs sm)).2
          cs with
      | none => rw [hrest] at h; cases h
      | some q =>
        rw [hrest, Option.map_some'] at h
        cases h
        intro p hp
        rw [List.zip_cons_cons, List.drop_succ_cons] at hp
        have := ih _ q.1 q.2 (fun d hd => hq d (by simp [hd]))
          (by rw [hrest])
        rw [agcEncode_gateHold] at this
        have hgh : ({ st with gateHold := st.gateHold - 1 } : DspState).gateHold
            = n := by
          dsimp only
          omega
        rw [hgh] at this
        exact this p hp

/-- Claim C7: a chunk processed with gate hold 0 and smoothed peak below 30
returns one 0xD5 silence byte per sample and leaves the whole DSP state
(in particular agc_gain) unchanged; consequently, starting from a freshly
re-armed gate (hold = 12), over any run of consecutive quiet chunks the
13th and all later ones come out as all-0xD5 silence. -/
theorem gate_silence_after_13_quiet_chunks :
    (∀ st raw sm, st.gateHold = 0 → raw ≠ [] → smooth raw = some sm →
      maxAbs sm < NOISE_GATE_THRESHOLD →
      pcm16_to_alaw st raw =
        some (List.replicate raw.length ALAW_SILENCE, st)) ∧
    (∀ chunks st outs st2, st.gateHold = NOISE_GATE_HOLD_CHUNKS →
      (∀ c ∈ chunks, quietChunk c = true) →
      processChunks st chunks = some (outs, st2) →
      ∀ p ∈ (outs.zip chunks).drop 12,
        p.1 = List.replicate p.2.length ALAW_SILENCE) := by
  constructor
  · intro st raw sm hh hne hsm hpk
    exact pcm16_gate_closed st raw sm hne hsm hpk hh
  · intro chunks st outs st2 hh hq h
    have := processChunks_quiet_silence chunks st outs st2 hq h
    rw [hh] at this
    exact this

/-- Witness for claim C7: thirteen quiet 3-sample chunks from a
freshly-armed gate; the first twelve are encoded (zero samples encode to
0x55 = 85), the 13th is all 0xD5 = 213. -/
theorem gate_silence_witness :
    (∀ c ∈ List.replicate 13 ([0, 0, 0] : List ℤ), quietChunk c = true) ∧
    (⟨30, 12, 0⟩ : DspState).gateHold = NOISE_GATE_HOLD_CHUNKS ∧
    processChunks ⟨30, 12, 0⟩ (List.replicate 13 [0, 0, 0]) =
      some (List.replicate 12 [85, 85, 85] ++ [[213, 213, 213]],
        (⟨30, 0, 12⟩ : DspState)) ∧
    (∀ p ∈ ((List.replicate 12 ([85, 85, 85] : List ℕ) ++ [[213, 213, 213]]).zip
        (List.replicate 13 ([0, 0, 0] : List ℤ))).drop 12,
      p.1 = List.replicate p.2.length ALAW_SILENCE) := by
  refine ⟨by decide, by decide, by decide, ?_⟩
  exact gate_silence_after_13_quiet_chunks.2 (List.replicate 13 [0, 0, 0])
    ⟨30, 12, 0⟩ (List.replicate 12 [85, 85, 85] ++ [[213, 213, 213]])
    ⟨30, 0, 12⟩ (by decide) (by decide) (by decide)

-- ===========================================================================
-- Claim C9 -- the AGC gain is always clamped to [1, 30]
-- ===========================================================================

lemma pcm16_gain_bounds (st : DspState) (raw : List ℤ) (out : List ℕ)
    (st2 : DspState) (h1 : 1 ≤ st.agcGain) (h2 : st.agcGain ≤ 30)
    (h : pcm16_to_alaw st raw = some (out, st2)) :
    1 ≤ st2.agcGain ∧ st2.agcGain ≤ 30 := by
  rw [pcm16_to_alaw] at h
  by_cases he : raw.isEmpty
  · rw [if_pos he] at h
    cases h
    exact ⟨h1, h2⟩
  · rw [if_neg he] at h
    cases hs : smooth raw with
    | none => rw [hs] at h; cases h
    | some sm =>
      rw [hs] at h
      dsimp only at h
      split_ifs at h with hg hh
      · cases h
        exact agcEncode_gain_bounds _ sm (maxAbs sm)
      · cases h
        exact agcEncode_gain_bounds _ sm (maxAbs sm)
      · cases h
        exact ⟨h1, h2⟩

lemma processChunks_gain_bounds (chunks : List (List ℤ)) :
    ∀ st outs st2, 1 ≤ st.agcGain → st.agcGain ≤ 30 →
      processChunks st chunks = some (outs, st2) →
      1 ≤ st2.agcGain ∧ st2.agcGain ≤ 30 := by
  induction chunks with
  | nil =>
    intro st outs st2 h1 h2 h
    rw [processChunks] at h
    cases h
    exact ⟨h1, h2⟩
  | cons c cs ih =>
    intro st outs st2 h1 h2 h
    rw [processChunks] at h
    cases hc : pcm16_to_alaw st c with
    | none => rw [hc] at h; cases h
    | some p =>
      rw [hc, Option.some_bind] at h
      cases hrest : processChunks p.2 cs with
      | none => rw [hrest] at h; cases h
      | some q =>
        rw [hrest, Option.map_some'] at h
        cases h
        obtain ⟨hb1, hb2⟩ := pcm16_gain_bounds st c p.1 p.2 h1 h2 hc
        exact ih p.2 q.1 q.2 hb1 hb2 hrest

/-- Claim C9: starting from the per-server initial DSP state, after any
sequence of processed chunks (any lengths, any sample values, including
gate-closed chunks) the AGC gain satisfies 1 <= agc_gain <= 30: the AGC
branch ends in an unconditional clamp to [AGC_MIN_GAIN, AGC_MAX_GAIN] and
the silence and empty branches leave the gain untouched. -/
theorem agc_gain_always_clamped :
    ∀ chunks outs st2,
      processChunks initialDspState chunks = some (outs, st2) →
      1 ≤ st2.agcGain ∧ st2.agcGain ≤ 30 := by
  intro chunks outs st2 h
  exact processChunks_gain_bounds chunks initialDspState outs st2
    (by norm_num [initialDspState]) (by norm_num [initialDspState]) h

/-- Witness for claim C9 on a concrete chunk sequence. -/
theorem agc_gain_clamped_witness :
    processChunks initialDspState [[0, 0, 0]] =
      some ([[213, 213, 213]], initialDspState) ∧
    1 ≤ initialDspState.agcGain ∧ initialDspState.agcGain ≤ 30 := by
  refine ⟨by decide, ?_⟩
  exact agc_gain_always_clamped [[0, 0, 0]] [[213, 213, 213]] initialDspState
    (by decide)

-- ===========================================================================
-- Backchannel retry and backoff controller
-- (TalkRelayServer._open_backchannel, _reset_doorbell_rtsp, _reset_bc_state,
-- talk_relay.py lines 414..439 and 479..578)
-- ===========================================================================

/-- Error kinds returned by DirectRtspBackchannel connect (lines 250..256):
ConnErr.none is the empty string returned on success. -/
inductive ConnErr
  | none
  | describe404
  | describeOther
  | noTrack
  | setupFailed
  | playFailed
  | exception
deriving DecidableEq

/-- JSON status messages sent to the WebSocket client by _send_status. -/
inductive StatusMsg
  | connecting
  | ready
  | failed (retryIn : ℤ)
  | unavailable
deriving DecidableEq

/-- Backchannel retry state of the server (lines 430..433) together with
the connected flag of the current backchannel object. Wall-clock times are
rationals. -/
structure BcState where
  failCount : ℕ
  backoffUntil : ℚ
  resetAttempted : Bool
  gaveUp : Bool
  connected : Bool
deriving DecidableEq

/-- Retry state as set in TalkRelayServer.__init__, before any client. -/
def initialBcState : BcState := ⟨0, 0, false, false, false⟩

/-- Embedding of `_reset_bc_state` (lines 534..539): resets the four retry fields on
every new WebSocket session; the backchannel object itself is untouched. -/
def resetBcState (b : BcState) : BcState := ⟨0, 0, false, false, b.connected⟩

/-- Result of one `_open_backchannel` call: the new retry state, the JSON
status messages sent to the client in order, the number of times
DirectRtspBackchannel.connect was invoked during the call (directly or
inside `_reset_doorbell_rtsp`), and the boolean return value. -/
structure OpenResult where
  state : BcState
  statuses : List StatusMsg
  connects : ℕ
  ok : Bool
deriving DecidableEq

/-- Tail of the failure path of `_open_backchannel` (lines 524..532): give
up with backchannel_unavailable once failCount reaches _BC_MAX_RETRIES = 5,
otherwise send backchannel_failed with retry_in = int(backoff). -/
def giveUpOrFail (s : BcState) (sts : List StatusMsg) (c : ℕ)
    (backoff : ℚ) : OpenResult :=
  if 5 ≤ s.failCount then
    ⟨{ s with gaveUp := true }, sts ++ [StatusMsg.unavailable], c, false⟩
  else
    ⟨s, sts ++ [StatusMsg.failed ⌊backoff⌋], c, false⟩

/-- Embedding of `_open_backchannel` (lines 479..532), with the upstream-reset helper
`_reset_doorbell_rtsp` (lines 541..578) inlined at its call site.
Environment inputs: `e1` is the outcome of the connect attempt of this
call, `resetOk` tells whether the go2rtc HTTP reset succeeded (source URL
found, DELETE and PUT both 20x), `e2` is the outcome of the retry connect
performed inside the reset helper (only reached when resetOk), `now` is
the time.time() value at the backoff check and `nowSet` the one at the
backoff assignment. On the reset-helper connect success the helper resets
fail_count and backoff_until but neither clears reset_attempted nor sends
any status message, and `_open_backchannel` returns True immediately.
The locals of the source are inlined: fc = fail_count + 1, so the backoff
exponent fc - 1 is written fail_count, and the updated state records are
written out in full. -/
def openBackchannel (e1 : ConnErr) (resetOk : Bool) (e2 : ConnErr)
    (now nowSet : ℚ) (s : BcState) : OpenResult :=
  if s.connected = true then ⟨s, [], 0, true⟩
  else if s.gaveUp = true then ⟨s, [], 0, false⟩
  else if now < s.backoffUntil then ⟨s, [], 0, false⟩
  else if e1 = ConnErr.none then
    ⟨⟨0, 0, false, s.gaveUp, true⟩,
      (if s.failCount = 0 then [StatusMsg.connecting] else [])
        ++ [StatusMsg.ready], 1, true⟩
  else if e1 = ConnErr.describe404 ∧ s.failCount + 1 = 3 ∧
      s.resetAttempted = false then
    if resetOk = true then
      if e2 = ConnErr.none then
        ⟨⟨0, 0, true, s.gaveUp, true⟩,
          (if s.failCount = 0 then [StatusMsg.connecting] else []), 2, true⟩
      else
        giveUpOrFail
          ⟨s.failCount + 1, nowSet + min (2 * 2 ^ s.failCount) 30, true,
            s.gaveUp, false⟩
          (if s.failCount = 0 then [StatusMsg.connecting] else []) 2
          (min (2 * 2 ^ s.failCount) 30)
    else
      giveUpOrFail
        ⟨s.failCount + 1, nowSet + min (2 * 2 ^ s.failCount) 30, true,
          s.gaveUp, false⟩
        (if s.failCount = 0 then [StatusMsg.connecting] else []) 1
        (min (2 * 2 ^ s.failCount) 30)
  else
    giveUpOrFail
      ⟨s.failCount + 1, nowSet + min (2 * 2 ^ s.failCount) 30,
        s.resetAttempted, s.gaveUp, false⟩
      (if s.failCount = 0 then [StatusMsg.connecting] else []) 1
      (min (2 * 2 ^ s.failCount) 30)

/-- A session-long run of `_open_backchannel` calls (one per audio frame
that finds the backchannel disconnected), at the given (check, set) call
times, with every connect attempt resolving to `e1` and every reset-path
attempt to `e2`; counts the total number of connect invocations. -/
def runSession (e1 : ConnErr) (resetOk : Bool) (e2 : ConnErr) :
    List (ℚ × ℚ) → BcState → BcState × ℕ
  | [], s => (s, 0)
  | t :: ts, s =>
    let r := openBackchannel e1 resetOk e2 t.1 t.2 s
    let rest := runSession e1 resetOk e2 ts r.state
    (rest.1, r.connects + rest.2)

/-- The whole mutable per-server state relevant to the claims: the DSP
state and the retry state, both attributes of the single TalkRelayServer
object (__init__, lines 420..433) -- they are per-server, not per-client. -/
structure ServerState where
  dsp : DspState
  bc : BcState
deriving DecidableEq

/-- The server state right after TalkRelayServer.__init__. -/
def initialServerState : ServerState := ⟨initialDspState, initialBcState⟩

/-- The handler prologue run on every WebSocket accept (lines 435..438):
adds the client and calls `_reset_bc_state` on the shared server object.
The DSP fields are not touched. -/
def acceptClient (s : ServerState) : ServerState :=
  { s with bc := resetBcState s.bc }

-- ===========================================================================
-- Claim C4 -- retry budget, backoff delays, give-up
-- ===========================================================================

/-- Upper bound on the connect invocations still possible in a session from
state `s` under continuous failures: one per remaining counted failure,
plus one for the reset-path attempt if not yet spent. -/
def connectBudget (s : BcState) : ℕ :=
  if s.gaveUp = true then 0
  else (5 - s.failCount) + (if s.resetAttempted = true then 0 else 1)

lemma giveUpOrFail_connects (s1 : BcState) (sts : List StatusMsg) (c : ℕ)
    (b : ℚ) : (giveUpOrFail s1 sts c b).connects = c := by
  rw [giveUpOrFail]
  split_ifs <;> rfl

lemma giveUpOrFail_state (s1 : BcState) (sts : List StatusMsg) (c : ℕ)
    (b : ℚ) :
    (giveUpOrFail s1 sts c b).state =
      if 5 ≤ s1.failCount then { s1 with gaveUp := true } else s1 := by
  rw [giveUpOrFail]
  split_ifs <;> rfl

lemma connectBudget_mk (F : ℕ) (bu : ℚ) (ra gu cn : Bool) :
    connectBudget ⟨F, bu, ra, gu, cn⟩ =
      if gu = true then 0 else (5 - F) + (if ra = true then 0 else 1) := rfl

lemma openBackchannel_budget (e1 : ConnErr) (resetOk : Bool) (e2 : ConnErr)
    (now nowSet : ℚ) (s : BcState)
    (h1 : e1 ≠ ConnErr.none) (h2 : e2 ≠ ConnErr.none)
    (hr : s.gaveUp = false → s.failCount ≤ 4) :
    (openBackchannel e1 resetOk e2 now nowSet s).connects +
        connectBudget (openBackchannel e1 resetOk e2 now nowSet s).state ≤
      connectBudget s ∧
    ((openBackchannel e1 resetOk e2 now nowSet s).state.gaveUp = false →
      (openBackchannel e1 resetOk e2 now nowSet s).state.failCount ≤ 4) := by
  by_cases hc : s.connected = true
  · rw [openBackchannel, if_pos hc]
    exact ⟨by dsimp only; omega, hr⟩
  by_cases hg : s.gaveUp = true
  · rw [openBackchannel, if_neg hc, if_pos hg]
    exact ⟨by dsimp only; omega, hr⟩
  by_cases hb : now < s.backoffUntil
  · rw [openBackchannel, if_neg hc, if_neg hg, if_pos hb]
    exact ⟨by dsimp only; omega, hr⟩
  have hgu : s.gaveUp = false := by
    cases h : s.gaveUp
    · rfl
    · exact absurd h hg
  have hfc : s.failCount ≤ 4 := hr hgu
  rw [openBackchannel, if_neg hc, if_neg hg, if_neg hb, if_neg h1]
  have hbs : connectBudget s =
      (5 - s.failCount) + (if s.resetAttempted = true then 0 else 1) := by
    rw [connectBudget, hgu]
    simp
  by_cases hrst : e1 = ConnErr.describe404 ∧ s.failCount + 1 = 3 ∧
      s.resetAttempted = false
  · rw [if_pos hrst]
    obtain ⟨-, hfc3, hra⟩ := hrst
    have hF : s.failCount = 2 := by omega
    have hkey : ∀ c : ℕ, c ≤ 2 →
        (giveUpOrFail
            ⟨s.failCount + 1, nowSet + min (2 * 2 ^ s.failCount) 30, true,
              s.gaveUp, false⟩
            (if s.failCount = 0 then [StatusMsg.connecting] else []) c
            (min (2 * 2 ^ s.failCount) 30)).connects +
          connectBudget (giveUpOrFail
            ⟨s.failCount + 1, nowSet + min (2 * 2 ^ s.failCount) 30, true,
              s.gaveUp, false⟩
            (if s.failCount = 0 then [StatusMsg.connecting] else []) c
            (min (2 * 2 ^ s.failCount) 30)).state ≤ connectBudget s ∧
        ((giveUpOrFail
            ⟨s.failCount + 1, nowSet + min (2 * 2 ^ s.failCount) 30, true,
              s.gaveUp, false⟩
            (if s.failCount = 0 then [StatusMsg.connecting] else []) c
            (min (2 * 2 ^ s.failCount) 30)).state.gaveUp = false →
          (giveUpOrFail
            ⟨s.failCount + 1, nowSet + min (2 * 2 ^ s.failCount) 30, true,
              s.gaveUp, false⟩
            (if s.failCount = 0 then [StatusMsg.connecting] else []) c
            (min (2 * 2 ^ s.failCount) 30)).state.failCount ≤ 4) := by
      intro c hcle
      rw [giveUpOrFail_connects, giveUpOrFail_state]
      rw [if_neg (by dsimp only; omega)]
      rw [connectBudget_mk, hgu, hbs, hra, hF]
      norm_num
      omega
    cases resetOk
    · rw [if_neg (by exact Bool.false_ne_true)]
      exact hkey 1 (by omega)
    · rw [if_pos rfl, if_neg h2]
      exact hkey 2 (by omega)
  · rw [if_neg hrst]
    rw [giveUpOrFail_connects, giveUpOrFail_state]
    by_cases h5 : 5 ≤ s.failCount + 1
    · rw [if_pos (by dsimp only; omega)]
      constructor
      · rw [connectBudget]
        dsimp only
        rw [hbs]
        simp
        omega
      · intro hgx
        dsimp only at hgx
        cases hgx
    · rw [if_neg (by dsimp only; omega)]
      constructor
      · rw [connectBudget_mk, hgu, hbs]
        simp
        omega
      · intro _
        dsimp only
        omega

lemma runSession_budget (e1 : ConnErr) (resetOk : Bool) (e2 : ConnErr)
    (h1 : e1 ≠ ConnErr.none) (h2 : e2 ≠ ConnErr.none) :
    ∀ (ts : List (ℚ × ℚ)) (s : BcState), (s.gaveUp = false → s.failCount ≤ 4) →
      (runSession e1 resetOk e2 ts s).2 ≤ connectBudget s := by
  intro ts
  induction ts with
  | nil =>
    intro s _
    simp [runSession]
  | cons t ts ih =>
    intro s hr
    obtain ⟨hb, hr2⟩ := openBackchannel_budget e1 resetOk e2 t.1 t.2 s h1 h2 hr
    have htail := ih (openBackchannel e1 resetOk e2 t.1 t.2 s).state hr2
    rw [runSession]
    dsimp only
    omega

/-- Claim C4 counterexample: a session whose connect attempts all fail with
DESCRIBE_404 and whose go2rtc reset succeeds performs 6 connect
invocations in total -- the 5 of the retry loop plus the extra one inside
the upstream-reset path -- refuting the claimed total of at most 5. -/
theorem retry_budget_counterexample :
    (runSession ConnErr.describe404 true ConnErr.describe404
      [(0, 0), (10, 10), (100, 100), (1000, 1000), (10000, 10000)]
      initialBcState).2 = 6 ∧
    ¬ (runSession ConnErr.describe404 true ConnErr.describe404
      [(0, 0), (10, 10), (100, 100), (1000, 1000), (10000, 10000)]
      initialBcState).2 ≤ 5 := by
  constructor
  · norm_num +decide [runSession, openBackchannel, giveUpOrFail, initialBcState]
  · norm_num +decide [runSession, openBackchannel, giveUpOrFail, initialBcState]

/-- Claim C4 amended: in a session with continuously failing connects,
connect is invoked at most 6 times in total -- at most 5 from the retry
loop plus at most one inside the upstream-reset path (the counterexample
shows 6 is reached); each counted failure increments fail_count by exactly
1 and sets backoff_until to the set-time plus min(2*2^(fail_count - 1), 30),
giving delays 2, 4, 8, 16 before retry-loop attempts 2..5; when the 5th
counted failure happens, gave_up is set and backchannel_unavailable is
sent; once gave_up is set no further connect occurs for the session. -/
theorem retry_budget_and_backoff :
    (∀ ts e1 resetOk e2, e1 ≠ ConnErr.none → e2 ≠ ConnErr.none →
      (runSession e1 resetOk e2 ts initialBcState).2 ≤ 6) ∧
    (∀ e1 resetOk e2 now nowSet s, s.connected = false → s.gaveUp = false →
      ¬ now < s.backoffUntil → e1 ≠ ConnErr.none → e2 ≠ ConnErr.none →
      (openBackchannel e1 resetOk e2 now nowSet s).state.failCount =
        s.failCount + 1 ∧
      (openBackchannel e1 resetOk e2 now nowSet s).state.backoffUntil =
        nowSet + min (2 * 2 ^ s.failCount) 30) ∧
    (∀ e1 resetOk e2 now nowSet s, s.connected = false → s.gaveUp = false →
      ¬ now < s.backoffUntil → e1 ≠ ConnErr.none → e2 ≠ ConnErr.none →
      s.failCount = 4 →
      (openBackchannel e1 resetOk e2 now nowSet s).state.gaveUp = true ∧
      StatusMsg.unavailable ∈
        (openBackchannel e1 resetOk e2 now nowSet s).statuses ∧
      (openBackchannel e1 resetOk e2 now nowSet s).ok = false) ∧
    (∀ e1 resetOk e2 now nowSet s, s.connected = false → s.gaveUp = true →
      openBackchannel e1 resetOk e2 now nowSet s = ⟨s, [], 0, false⟩) := by
  refine ⟨?_, ?_, ?_, ?_⟩
  · intro ts e1 resetOk e2 h1 h2
    have := runSession_budget e1 resetOk e2 h1 h2 ts initialBcState
      (by intro _; norm_num [initialBcState])
    calc (runSession e1 resetOk e2 ts initialBcState).2
        ≤ connectBudget initialBcState := this
      _ ≤ 6 := by norm_num [connectBudget, initialBcState]
  · intro e1 resetOk e2 now nowSet s hc hg hb h1 h2
    obtain ⟨fcnt, bu, ra, gu, cn⟩ := s
    simp only at hc hg hb
    subst hc
    subst hg
    rw [openBackchannel]
    unfold giveUpOrFail
    split_ifs <;> simp_all
  · intro e1 resetOk e2 now nowSet s hc hg hb h1 h2 h4
    obtain ⟨fcnt, bu, ra, gu, cn⟩ := s
    simp only at hc hg hb h4
    subst hc
    subst hg
    subst h4
    rw [openBackchannel]
    unfold giveUpOrFail
    split_ifs <;> simp_all
  · intro e1 resetOk e2 now nowSet s hc hg
    rw [openBackchannel]
    rw [if_neg (by rw [hc]; exact Bool.false_ne_true), if_pos hg]

/-- Witness for the amended claim C4 at concrete states and inputs. -/
theorem retry_budget_witness :
    (runSession ConnErr.describeOther false ConnErr.describeOther
      [((0 : ℚ), (0 : ℚ))] initialBcState).2 ≤ 6 ∧
    (openBackchannel ConnErr.describeOther false ConnErr.describeOther 0 0
      initialBcState).state.failCount = initialBcState.failCount + 1 ∧
    (openBackchannel ConnErr.describeOther false ConnErr.describeOther 0 0
      initialBcState).state.backoffUntil =
      0 + min (2 * 2 ^ initialBcState.failCount) 30 ∧
    (openBackchannel ConnErr.describeOther false ConnErr.describeOther 0 0
      ⟨4, 0, false, false, false⟩).state.gaveUp = true ∧
    openBackchannel ConnErr.describeOther false ConnErr.describeOther 0 0
      ⟨5, 130, false, true, false⟩ = ⟨⟨5, 130, false, true, false⟩, [], 0, false⟩ := by
  refine ⟨?_, ?_, ?_, ?_, ?_⟩
  · exact retry_budget_and_backoff.1 [((0 : ℚ), (0 : ℚ))] ConnErr.describeOther
      false ConnErr.describeOther (by decide) (by decide)
  · exact (retry_budget_and_backoff.2.1 ConnErr.describeOther false
      ConnErr.describeOther 0 0 initialBcState rfl rfl (by norm_num [initialBcState])
      (by decide) (by decide)).1
  · exact (retry_budget_and_backoff.2.1 ConnErr.describeOther false
      ConnErr.describeOther 0 0 initialBcState rfl rfl (by norm_num [initialBcState])
      (by decide) (by decide)).2
  · exact (retry_budget_and_backoff.2.2.1 ConnErr.describeOther false
      ConnErr.describeOther 0 0 ⟨4, 0, false, false, false⟩ rfl rfl
      (by norm_num) (by decide) (by decide) rfl).1
  · exact retry_budget_and_backoff.2.2.2 ConnErr.describeOther false
      ConnErr.describeOther 0 0 ⟨5, 130, false, true, false⟩ rfl rfl

-- ===========================================================================
-- Claim C5 -- actions on connect success
-- ===========================================================================

/-- Claim C5 counterexample: a connect attempt that succeeds through the
upstream-reset path (3rd failure is DESCRIBE_404, go2rtc reset succeeds,
the retry connect succeeds) resets fail_count and backoff_until and makes
_open_backchannel return True, but no backchannel_ready message (indeed no
message at all) is sent to the client, refuting the claim for this kind of
success. -/
theorem reset_path_success_sends_no_ready :
    (openBackchannel ConnErr.describe404 true ConnErr.none 5 5
      ⟨2, 0, false, false, false⟩).ok = true ∧
    (openBackchannel ConnErr.describe404 true ConnErr.none 5 5
      ⟨2, 0, false, false, false⟩).state.failCount = 0 ∧
    (openBackchannel ConnErr.describe404 true ConnErr.none 5 5
      ⟨2, 0, false, false, false⟩).state.backoffUntil = 0 ∧
    (openBackchannel ConnErr.describe404 true ConnErr.none 5 5
      ⟨2, 0, false, false, false⟩).statuses = [] ∧
    StatusMsg.ready ∉ (openBackchannel ConnErr.describe404 true ConnErr.none
      5 5 ⟨2, 0, false, false, false⟩).statuses := by
  norm_num +decide [openBackchannel]

/-- Claim C5 amended: when a connect attempt of the retry loop succeeds,
the server resets fail_count to 0, backoff_until to 0 and reset_attempted
to false and sends backchannel_ready; when the retry after a successful
upstream reset succeeds, the server resets fail_count to 0 and
backoff_until to 0 but keeps reset_attempted true and sends no status
message at all. -/
theorem connect_success_actions :
    (∀ resetOk e2 now nowSet s, s.connected = false → s.gaveUp = false →
      ¬ now < s.backoffUntil →
      openBackchannel ConnErr.none resetOk e2 now nowSet s =
        ⟨⟨0, 0, false, s.gaveUp, true⟩,
          (if s.failCount = 0 then [StatusMsg.connecting] else [])
            ++ [StatusMsg.ready], 1, true⟩) ∧
    (∀ now nowSet s, s.connected = false → s.gaveUp = false →
      ¬ now < s.backoffUntil → s.failCount = 2 → s.resetAttempted = false →
      openBackchannel ConnErr.describe404 true ConnErr.none now nowSet s =
        ⟨⟨0, 0, true, s.gaveUp, true⟩, [], 2, true⟩ ∧
      StatusMsg.ready ∉ (openBackchannel ConnErr.describe404 true
        ConnErr.none now nowSet s).statuses) := by
  constructor
  · intro resetOk e2 now nowSet s hc hg hb
    rw [openBackchannel]
    rw [if_neg (by rw [hc]; exact Bool.false_ne_true),
      if_neg (by rw [hg]; exact Bool.false_ne_true), if_neg hb, if_pos rfl]
  · intro now nowSet s hc hg hb hf hra
    have h : openBackchannel ConnErr.describe404 true ConnErr.none now nowSet s
        = ⟨⟨0, 0, true, s.gaveUp, true⟩, [], 2, true⟩ := by
      rw [openBackchannel]
      rw [if_neg (by rw [hc]; exact Bool.false_ne_true),
        if_neg (by rw [hg]; exact Bool.false_ne_true), if_neg hb,
        if_neg (by decide), if_pos ⟨rfl, by omega, hra⟩, if_pos rfl,
        if_pos rfl]
      rw [if_neg (by omega)]
    refine ⟨h, ?_⟩
    rw [h]
    simp

/-- Witness for the amended claim C5 at concrete states. -/
theorem connect_success_witness :
    openBackchannel ConnErr.none true ConnErr.describe404 0 0 initialBcState =
      ⟨⟨0, 0, false, false, true⟩,
        [StatusMsg.connecting, StatusMsg.ready], 1, true⟩ ∧
    openBackchannel ConnErr.describe404 true ConnErr.none 5 5
      ⟨2, 0, false, false, false⟩ =
      ⟨⟨0, 0, true, false, true⟩, [], 2, true⟩ := by
  constructor
  · have h := connect_success_actions.1 true ConnErr.describe404 0 0
      initialBcState rfl rfl (by norm_num [initialBcState])
    rw [h]
    rfl
  · exact (connect_success_actions.2 5 5 ⟨2, 0, false, false, false⟩
      rfl rfl (by norm_num) rfl rfl).1

-- ===========================================================================
-- Claim C2 -- the session state is shared across clients
-- ===========================================================================

/-- Claim C2 counterexample: the DSP and retry state live on the single
TalkRelayServer object, so they are shared by all WebSocket clients. After
a first client exhausts the retry budget (gave_up = true, reached here by
an explicit 5-failure run from the initial state), a second client
connecting runs the accept prologue, which resets the shared retry state:
the first client then observes gave_up = false again, and the next audio
frame performs a connect attempt where before the accept it performed
none. This refutes the two-run noninterference claim at a concrete pair of
runs differing only in the second client connecting. -/
theorem retry_state_shared_across_clients :
    let s1 := (runSession ConnErr.describeOther true ConnErr.describeOther
      [(0, 0), (10, 10), (20, 20), (40, 40), (100, 100)] initialBcState).1
    s1.gaveUp = true ∧
    (acceptClient ⟨initialDspState, s1⟩).bc.gaveUp = false ∧
    (openBackchannel ConnErr.describeOther true ConnErr.describeOther
      200 200 s1).connects = 0 ∧
    (openBackchannel ConnErr.describeOther true ConnErr.describeOther
      200 200 (acceptClient ⟨initialDspState, s1⟩).bc).connects = 1 := by
  norm_num +decide [runSession, openBackchannel, giveUpOrFail,
    initialBcState, acceptClient, resetBcState]

/-- Claim C2 amended: the DSP state and the backchannel retry state are
fields of the one TalkRelayServer object shared by every client; the
handler prologue run on each WebSocket accept resets the shared retry
state (fail_count = 0, backoff_until = 0, reset_attempted = false,
gave_up = false), keeps the backchannel connection flag, and leaves the
DSP state untouched -- so a second client connecting does alter the retry
state observed by a live first client (the counterexample theorem), and
nothing else of the session state changes on accept. -/
theorem accept_resets_shared_retry_state :
    ∀ s : ServerState,
      acceptClient s = ⟨s.dsp, ⟨0, 0, false, false, s.bc.connected⟩⟩ := by
  intro s
  rfl

-- ===========================================================================
-- Claim C10 -- fresh-session gate and AGC start values
-- ===========================================================================

/-- Claim C10 counterexample: the DSP state is per-server and is not reset
by the accept prologue, so a fresh session does not necessarily start with
the gate closed. After session 1 processes one loud chunk (gate hold
re-armed to 12), a new client accept leaves gate_hold = 12, and the first
quiet chunk of the fresh session is encoded and forwarded (bytes 0x55, the
encoding of zero samples) instead of being replaced by 0xD5 silence. -/
theorem quiet_session_start_counterexample :
    pcm16_to_alaw initialServerState.dsp [1000, 1000, 1000] =
      some ([50, 50, 50], ⟨129/10, 12, 1⟩) ∧
    (acceptClient ⟨⟨129/10, 12, 1⟩, initialBcState⟩).dsp.gateHold = 12 ∧
    pcm16_to_alaw (acceptClient ⟨⟨129/10, 12, 1⟩, initialBcState⟩).dsp
      [0, 0, 0] = some ([85, 85, 85], ⟨129/10, 11, 2⟩) ∧
    ([85, 85, 85] : List ℕ) ≠ List.replicate 3 ALAW_SILENCE := by
  refine ⟨?_, rfl, ?_, by decide⟩
  · have hs : smooth [1000, 1000, 1000] = some [1000, 1000, 1000] := by decide
    rw [pcm16_to_alaw, hs]
    norm_num [initialServerState, initialDspState, maxAbs,
      NOISE_GATE_THRESHOLD, NOISE_GATE_HOLD_CHUNKS, agcEncode,
      AGC_MIN_GAIN, AGC_MAX_GAIN, AGC_TARGET, AGC_ATTACK, AGC_RELEASE,
      encodeSample, SOFT_LIMIT, SOFT_CEILING]
    all_goals decide
  · have hs : smooth [0, 0, 0] = some [0, 0, 0] := by decide
    rw [show (acceptClient ⟨⟨129/10, 12, 1⟩, initialBcState⟩).dsp =
      (⟨129/10, 12, 1⟩ : DspState) from rfl]
    rw [pcm16_to_alaw, hs]
    norm_num [maxAbs, NOISE_GATE_THRESHOLD, NOISE_GATE_HOLD_CHUNKS, agcEncode,
      AGC_MIN_GAIN, AGC_MAX_GAIN, AGC_TARGET, AGC_ATTACK, AGC_RELEASE,
      encodeSample, SOFT_LIMIT, SOFT_CEILING]
    all_goals decide

/-- Claim C10 amended: in a freshly constructed server -- hence in the
first session -- the noise gate starts closed (gate_hold = 0) and the AGC
gain starts at the maximum 30; every chunk from server start whose
smoothed peak is below 30 is replaced by all-0xD5 silence until some chunk
reaches the threshold (later sessions inherit whatever DSP state the
previous session left, see the counterexample theorem); and a chunk whose
smoothed peak is 0 processed while the gate is held open skips the AGC
update entirely -- no division by zero, gain unchanged. -/
theorem fresh_server_gate_closed_and_agc_max :
    initialServerState.dsp.gateHold = 0 ∧
    initialServerState.dsp.agcGain = 30 ∧
    (∀ chunks outs st2, (∀ c ∈ chunks, quietChunk c = true) →
      processChunks initialServerState.dsp chunks = some (outs, st2) →
      ∀ p ∈ outs.zip chunks, p.1 = List.replicate p.2.length ALAW_SILENCE) ∧
    (∀ st raw sm out st2, 0 < st.gateHold → 1 ≤ st.agcGain →
      st.agcGain ≤ 30 → raw ≠ [] → smooth raw = some sm → maxAbs sm = 0 →
      pcm16_to_alaw st raw = some (out, st2) → st2.agcGain = st.agcGain) := by
  refine ⟨rfl, rfl, ?_, ?_⟩
  · intro chunks outs st2 hq h
    have hall := processChunks_quiet_silence chunks initialServerState.dsp
      outs st2 hq h
    simpa using hall
  · intro st raw sm out st2 hh h1 h2 hne hsm hpk h
    rw [pcm16_quiet_hold st raw sm hne hsm
      (by rw [hpk]; norm_num [NOISE_GATE_THRESHOLD]) hh] at h
    rw [hpk] at h
    cases h
    exact agcEncode_peak_zero _ sm h1 h2

/-- Witness for the amended claim C10 at concrete chunks and states. -/
theorem fresh_server_witness :
    (∀ c ∈ ([[0, 0, 0]] : List (List ℤ)), quietChunk c = true) ∧
    processChunks initialServerState.dsp [[0, 0, 0]] =
      some ([[213, 213, 213]], initialServerState.dsp) ∧
    (∀ p ∈ ([[213, 213, 213]] : List (List ℕ)).zip
        ([[0, 0, 0]] : List (List ℤ)),
      p.1 = List.replicate p.2.length ALAW_SILENCE) ∧
    pcm16_to_alaw ⟨15, 3, 7⟩ [0, 0, 0] = some ([85, 85, 85], ⟨15, 2, 8⟩) ∧
    ((⟨15, 2, 8⟩ : DspState).agcGain = (⟨15, 3, 7⟩ : DspState).agcGain) := by
  refine ⟨by decide, by decide, ?_, by decide, ?_⟩
  · exact fresh_server_gate_closed_and_agc_max.2.2.1 [[0, 0, 0]]
      [[213, 213, 213]] initialServerState.dsp (by decide) (by decide)
  · exact fresh_server_gate_closed_and_agc_max.2.2.2 ⟨15, 3, 7⟩ [0, 0, 0]
      [0, 0, 0] [85, 85, 85] ⟨15, 2, 8⟩ (by decide) (by decide) (by decide)
      (by decide) (by decide) (by decide) (by decide)
